import Mathlib

/-!
Verification development for the storyboard production system
(`src/storyboard`): scene-to-asset matching (`services/matcher.ts`),
assembly planning (`services/assembler.ts`) and the production job
processor (`routes/storyboards.ts`, i.e. the route/job code bundled in
`types.ts`).

Numbers produced and compared by the TypeScript code are modelled as
rationals (`ℚ`); the one function that takes a square root,
`cosineSimilarity`, is modelled separately over `ℝ`.  The external
collaborators (embedding service, vector search, video generation,
database) are modelled as explicit inputs: the pure scoring and planning
logic is embedded exactly as written in the source.
-/

/-- Transition kinds of a scene (`TransitionType` in `types.ts`). -/
inductive TransitionType where
  | cut
  | fade
  | dissolve
  | wipe
deriving DecidableEq

/-- Source kinds of a resolved asset (`AssetSource` in `types.ts`). -/
inductive AssetSource where
  | existing
  | generated
  | manual
deriving DecidableEq

/-- A storyboard scene (`SceneSchema` in `types.ts`).  Nullable fields of
the schema are `Option`s. -/
structure Scene where
  sceneId : String
  sequence : Nat
  duration : ℚ
  description : String
  visualKeywords : List String
  styleHints : Option String
  transitionIn : TransitionType
  transitionOut : TransitionType
  matchedAssetId : Option String
  matchScore : Option ℚ
  assetSource : Option AssetSource
  needsReview : Bool
deriving DecidableEq

/-- A storyboard (`StoryboardSchema` in `types.ts`). -/
structure Storyboard where
  storyboardId : String
  title : String
  scenes : List Scene
  outputResolution : ℚ × ℚ
  outputFps : ℚ
deriving DecidableEq

/-- A candidate asset returned by the search collaborator
(`LanceDBAssetSchema` in `types.ts`). -/
structure LanceDBAsset where
  id : String
  filename : String
  filepath : String
  source : String
  media_type : String
  description : Option String
  tags : Option (List String)
  style : Option String
  use_case : Option String
  width : Option ℚ
  height : Option ℚ
  duration : Option ℚ
  fps : Option ℚ
  vector : Option (List ℚ)
deriving DecidableEq

/-- A scored candidate (`AssetMatchSchema` in `types.ts`). -/
structure AssetMatch where
  assetId : String
  filepath : String
  semanticScore : ℚ
  styleScore : ℚ
  useCaseScore : ℚ
  qualityScore : ℚ
  durationScore : ℚ
  compositeScore : ℚ
  needsReview : Bool
deriving DecidableEq

/-- A resolved asset (`ResolvedAsset` in `types.ts`). -/
structure ResolvedAsset where
  sceneId : String
  assetId : String
  localPath : String
  source : AssetSource
  confidence : ℚ
  needsReview : Bool
deriving DecidableEq

/-- CONFIG.WEIGHTS.semanticSimilarity (`types.ts`). -/
def WEIGHTS_semanticSimilarity : ℚ := 0.50

/-- CONFIG.WEIGHTS.styleMatch (`types.ts`). -/
def WEIGHTS_styleMatch : ℚ := 0.20

/-- CONFIG.WEIGHTS.useCaseMatch (`types.ts`). -/
def WEIGHTS_useCaseMatch : ℚ := 0.15

/-- CONFIG.WEIGHTS.qualityScore (`types.ts`). -/
def WEIGHTS_qualityScore : ℚ := 0.10

/-- CONFIG.WEIGHTS.durationFit (`types.ts`). -/
def WEIGHTS_durationFit : ℚ := 0.05

/-- CONFIG.THRESHOLDS.semanticMinimum (`types.ts`). -/
def THRESHOLDS_semanticMinimum : ℚ := 0.72

/-- CONFIG.THRESHOLDS.compositeMinimum (`types.ts`). -/
def THRESHOLDS_compositeMinimum : ℚ := 0.78

/-- CONFIG.THRESHOLDS.excellentMatch (`types.ts`). -/
def THRESHOLDS_excellentMatch : ℚ := 0.90

/-- Drop a maximal run of leading whitespace characters (helper for the
model of JavaScript's `str.split(/\s+/)`). -/
def dropWsRun : List Char → List Char
  | [] => []
  | c :: cs => if c.isWhitespace then dropWsRun cs else c :: cs

theorem dropWsRun_length_le : ∀ l : List Char, (dropWsRun l).length ≤ l.length := by
  intro l
  induction l with
  | nil => simp [dropWsRun]
  | cons c cs ih =>
    by_cases h : c.isWhitespace
    · simp only [dropWsRun, if_pos h]
      exact Nat.le_succ_of_le ih
    · simp [dropWsRun, if_neg h]

/-- Accumulator-passing worker for `jsSplitWs`. -/
def splitWsGo (acc : List Char) : List Char → List (List Char)
  | [] => [acc.reverse]
  | c :: cs =>
    if c.isWhitespace then acc.reverse :: splitWsGo [] (dropWsRun cs)
    else splitWsGo (c :: acc) cs
termination_by l => l.length
decreasing_by
  · exact Nat.lt_succ_of_le (dropWsRun_length_le cs)
  · exact Nat.lt_succ_self _

/-- JavaScript `str.split(/\s+/)`: split on maximal whitespace runs,
keeping the (possibly empty) chunks before the first run and after the
last run, e.g. `" a  b " ↦ ["", "a", "b", ""]` and `"" ↦ [""]`. -/
def jsSplitWs (s : String) : List String :=
  (splitWsGo [] s.toList).map List.asString

/-- JavaScript truthiness of a nullable string: `null`/`undefined` and
`""` are falsy. -/
def truthyOptStr : Option String → Bool
  | none => false
  | some s => !(s == "")

/-- JavaScript `x || d` for a nullable number `x` (`null`/`undefined`
and `0` are falsy). -/
def jsOrQ (x : Option ℚ) (d : ℚ) : ℚ :=
  match x with
  | none => d
  | some v => if v = 0 then d else v

/-- calculateStyleScore (`matcher.ts`): lowercase keyword/style token
sets for the scene and the candidate; score = |intersection| /
max(|scene set|, 1); neutral 0.5 when either set is empty.  JavaScript
`Set`s are modelled as deduplicated lists (only size and membership are
used). -/
def calculateStyleScore (scene : Scene) (asset : LanceDBAsset) : ℚ :=
  let sceneTags : List String :=
    (scene.visualKeywords.map String.toLower ++
      (match scene.styleHints with
       | some s => jsSplitWs s.toLower
       | none => [])).dedup
  let assetTags : List String :=
    ((asset.tags.getD []).map String.toLower ++
      (match asset.style with
       | some s => jsSplitWs s.toLower
       | none => [])).dedup
  if sceneTags.length = 0 ∨ assetTags.length = 0 then 0.5
  else (sceneTags.countP (fun t => assetTags.contains t) : ℚ) /
    (max sceneTags.length 1 : ℕ)

/-- Substring test: model of JavaScript `s.includes(pat)`. -/
def strIncludes (s pat : String) : Bool :=
  decide (pat.toList <:+: s.toList)

/-- calculateUseCaseScore (`matcher.ts`): tokens of the candidate's
use-case text longer than 3 characters that occur in the scene's
description + keywords, divided by the token count, capped at 1;
neutral 0.5 when there is no use-case text (JavaScript `!asset.use_case`
is also true for the empty string). -/
def calculateUseCaseScore (scene : Scene) (asset : LanceDBAsset) : ℚ :=
  match asset.use_case with
  | none => 0.5
  | some uc =>
    if uc = "" then 0.5
    else
      let sceneText :=
        (scene.description ++ " " ++ String.intercalate " " scene.visualKeywords).toLower
      let useCaseWords := jsSplitWs uc.toLower
      let matchCount :=
        useCaseWords.countP (fun w => decide (w.length > 3) && strIncludes sceneText w)
      min ((matchCount : ℚ) / (max useCaseWords.length 1 : ℕ)) 1

/-- calculateQualityScore (`matcher.ts`): candidate pixel count against
the fixed 1920×1080 reference; 1 when at or above, 0.3 when unknown/zero,
otherwise the raw ratio. -/
def calculateQualityScore (asset : LanceDBAsset) : ℚ :=
  let width := jsOrQ asset.width 0
  let height := jsOrQ asset.height 0
  let targetPixels : ℚ := 1920 * 1080
  let assetPixels := width * height
  if assetPixels ≥ targetPixels then 1
  else if assetPixels = 0 then 0.3
  else assetPixels / targetPixels

/-- calculateDurationScore (`matcher.ts`): neutral 0.5 for non-video or
duration-less candidates (JavaScript `!asset.duration` is also true for
duration 0); 1 when the candidate is at least as long as the scene's
target; otherwise the ratio floored at 0.3. -/
def calculateDurationScore (scene : Scene) (asset : LanceDBAsset) : ℚ :=
  match asset.duration with
  | none => 0.5
  | some assetDuration =>
    if assetDuration = 0 ∨ asset.media_type ≠ "video" then 0.5
    else if assetDuration ≥ scene.duration then 1
    else max (assetDuration / scene.duration) 0.3

/-- The five sub-scores fed to calculateCompositeScore (`matcher.ts`). -/
structure Scores where
  semantic : ℚ
  style : ℚ
  useCase : ℚ
  quality : ℚ
  duration : ℚ
deriving DecidableEq

/-- calculateCompositeScore (`matcher.ts`): fixed weighted sum of the
five sub-scores with the CONFIG.WEIGHTS coefficients. -/
def calculateCompositeScore (s : Scores) : ℚ :=
  s.semantic * WEIGHTS_semanticSimilarity +
  s.style * WEIGHTS_styleMatch +
  s.useCase * WEIGHTS_useCaseMatch +
  s.quality * WEIGHTS_qualityScore +
  s.duration * WEIGHTS_durationFit

/-- The semantic score assigned to a candidate in matchSceneToAssets
(`matcher.ts`): the similarity of the query embedding and the
candidate's vector when it carries one, the fixed default 0.7 otherwise.
`sim` stands for the (real-valued) `cosineSimilarity`, modelled exactly
over `ℝ` below; every theorem about the pipeline holds for an arbitrary
similarity function. -/
def semanticScoreOf (sim : List ℚ → List ℚ → ℚ) (embedding : List ℚ)
    (asset : LanceDBAsset) : ℚ :=
  match asset.vector with
  | some v => sim embedding v
  | none => 0.7

/-- The review-flag expression of matchSceneToAssets (`matcher.ts`):
`compositeScore >= CONFIG.THRESHOLDS.compositeMinimum &&
compositeScore < CONFIG.THRESHOLDS.excellentMatch`. -/
def needsReviewOf (compositeScore : ℚ) : Bool :=
  decide (compositeScore ≥ THRESHOLDS_compositeMinimum) &&
  decide (compositeScore < THRESHOLDS_excellentMatch)

/-- The loop body of matchSceneToAssets (`matcher.ts`): score one
candidate, or skip it (`continue`, modelled as `none`) when its semantic
score is below the semantic floor. -/
def scoreAsset (sim : List ℚ → List ℚ → ℚ) (embedding : List ℚ)
    (scene : Scene) (asset : LanceDBAsset) : Option AssetMatch :=
  let semanticScore := semanticScoreOf sim embedding asset
  if semanticScore < THRESHOLDS_semanticMinimum then none
  else
    let styleScore := calculateStyleScore scene asset
    let useCaseScore := calculateUseCaseScore scene asset
    let qualityScore := calculateQualityScore asset
    let durationScore := calculateDurationScore scene asset
    let compositeScore := calculateCompositeScore
      ⟨semanticScore, styleScore, useCaseScore, qualityScore, durationScore⟩
    some
      { assetId := asset.id
        filepath := asset.filepath
        semanticScore := semanticScore
        styleScore := styleScore
        useCaseScore := useCaseScore
        qualityScore := qualityScore
        durationScore := durationScore
        compositeScore := compositeScore
        needsReview := needsReviewOf compositeScore }

/-- matchSceneToAssets (`matcher.ts`), given the embedding returned by
the embedding collaborator and the candidate list returned by the search
collaborator: score every candidate, drop the ones below the semantic
floor, and sort by composite score descending (JavaScript's stable
`sort` with comparator `(a, b) => b.compositeScore - a.compositeScore`). -/
def matchSceneToAssets (sim : List ℚ → List ℚ → ℚ) (embedding : List ℚ)
    (scene : Scene) (candidates : List LanceDBAsset) : List AssetMatch :=
  (candidates.filterMap (scoreAsset sim embedding scene)).mergeSort
    (fun a b => decide (b.compositeScore ≤ a.compositeScore))

/-- shouldGenerate (`matcher.ts`): true on an empty match list, and
otherwise exactly when the top match's composite score is below the
composite floor. -/
def shouldGenerate (ms : List AssetMatch) : Bool :=
  match ms with
  | [] => true
  | topMatch :: _ => decide (topMatch.compositeScore < THRESHOLDS_compositeMinimum)

/-- getBestMatch (`matcher.ts`): the top match when its composite score
is at least the composite floor, `null` otherwise. -/
def getBestMatch (ms : List AssetMatch) : Option AssetMatch :=
  match ms with
  | [] => none
  | topMatch :: _ =>
    if topMatch.compositeScore ≥ THRESHOLDS_compositeMinimum then some topMatch
    else none

/-- The fixed crossfade length of assembleWithTransitions
(`assembler.ts`): `const transitionDuration = 0.5`. -/
def transitionDuration : ℚ := 0.5

/-- Stream labels appearing in the filter graph built by
assembleWithTransitions (`assembler.ts`): `[vi]`, `[xfadei]`,
`[concati]`, `[outv]`, and the empty label written for `currentInput`
after the final crossfade. -/
inductive FLabel where
  | v (i : Nat)
  | xf (i : Nat)
  | cc (i : Nat)
  | outv
  | emptyLabel
deriving DecidableEq

/-- The ffmpeg name written for a transition kind:
`transitionType === 'wipe' ? 'wipeleft' : transitionType`
(`assembler.ts`). -/
def xfadeName : TransitionType → String
  | .cut => "cut"
  | .fade => "fade"
  | .dissolve => "dissolve"
  | .wipe => "wipeleft"

/-- One entry of the `filterParts` array built by
assembleWithTransitions (`assembler.ts`): a per-input
scale/pad/setsar/fps chain, a two-input `xfade`, a two-input `concat`,
or the n-input `concat` pushed by the fallback. -/
inductive FilterOp where
  | scale (inputIndex : Nat) (width height fps : ℚ)
  | xfade (inp : FLabel) (vIdx : Nat) (tname : String) (duration offset : ℚ) (out : FLabel)
  | concat2 (inp : FLabel) (vIdx : Nat) (out : FLabel)
  | concatAll (n : Nat)
deriving DecidableEq

/-- Whether a filter part is one of the per-input
scale/pad/setsar/fps normalization chains. -/
def FilterOp.isNormalize : FilterOp → Bool
  | .scale _ _ _ _ => true
  | _ => false

/-- Whether the text of a filter part contains the literal `[outv]`
(the `filterParts[...].includes('[outv]')` test of `assembler.ts`): the
label `[outv]` can only occur as the input or output label of a
junction part, or as the output of the fallback `concat`. -/
def FilterOp.hasOutv : FilterOp → Bool
  | .scale _ _ _ _ => false
  | .xfade inp _ _ _ _ out => decide (inp = .outv) || decide (out = .outv)
  | .concat2 inp _ out => decide (inp = .outv) || decide (out = .outv)
  | .concatAll _ => true

/-- `scenes[i]?.duration || 5` (`assembler.ts`): 5 when the scene is
missing or its duration is falsy. -/
def jsSceneDuration (scenes : List Scene) (i : Nat) : ℚ :=
  match scenes[i]? with
  | some sc => if sc.duration = 0 then 5 else sc.duration
  | none => 5

/-- `scenes[i]?.transitionOut || 'cut'` (`assembler.ts`): the scene's
transition-out kind, `cut` when the scene is missing (the kind itself is
always a non-empty, hence truthy, string). -/
def jsSceneTransitionOut (scenes : List Scene) (i : Nat) : TransitionType :=
  match scenes[i]? with
  | some sc => sc.transitionOut
  | none => .cut

/-- The mutable state of the transition-chaining loop of
assembleWithTransitions (`assembler.ts`): `currentInput`, `offset`, and
the `filterParts` array. -/
structure ChainState where
  currentInput : FLabel
  offset : ℚ
  parts : List FilterOp
deriving DecidableEq

/-- One iteration (index `i`, from 1 to n-1) of the transition-chaining
loop of assembleWithTransitions (`assembler.ts`): update the running
offset (`scenes[0]?.duration || 5` at i = 1, otherwise add the previous
scene's duration minus the transition duration), then push either an
`xfade` part (offset parameter `offset - transitionDuration`, output
label `[outv]` on the last junction) or a two-input `concat` part. -/
def junctionStep (n : Nat) (scenes : List Scene) (st : ChainState) (i : Nat) : ChainState :=
  let transitionType := jsSceneTransitionOut scenes (i - 1)
  let offset :=
    if i = 1 then jsSceneDuration scenes 0
    else st.offset + jsSceneDuration scenes (i - 1) - transitionDuration
  if transitionType ≠ .cut then
    let outLabel : FLabel := if i = n - 1 then .outv else .xf i
    { currentInput := if outLabel = .outv then .emptyLabel else outLabel
      offset := offset
      parts := st.parts ++
        [.xfade st.currentInput i (xfadeName transitionType) transitionDuration
          (offset - transitionDuration) outLabel] }
  else
    if i = n - 1 then
      { st with offset := offset, parts := st.parts ++ [.concat2 st.currentInput i .outv] }
    else
      { currentInput := .cc i
        offset := offset
        parts := st.parts ++ [.concat2 st.currentInput i (.cc i)] }

/-- The per-input scale/pad/setsar/fps parts pushed first by
assembleWithTransitions (`assembler.ts`). -/
def scaleParts (n : Nat) (width height fps : ℚ) : List FilterOp :=
  (List.range n).map (fun i => .scale i width height fps)

/-- The transition-chaining loop of assembleWithTransitions
(`assembler.ts`): fold `junctionStep` over i = 1 .. n-1 starting from
`currentInput = '[v0]'`, `offset = 0` and the scale parts. -/
def buildChain (n : Nat) (scenes : List Scene) (width height fps : ℚ) : ChainState :=
  (List.range' 1 (n - 1)).foldl (junctionStep n scenes)
    ⟨.v 0, 0, scaleParts n width height fps⟩

/-- The final-output check of assembleWithTransitions (`assembler.ts`):
when the last filter part does not mention `[outv]`, keep only the first
n (scale) parts and push the n-input `concat` fallback.  `none` models
the crash of `filterParts[filterParts.length - 1].includes(...)` on an
empty array (only reachable with no inputs). -/
def finalizeParts (n : Nat) (parts : List FilterOp) : Option (List FilterOp) :=
  match parts.getLast? with
  | none => none
  | some lastOp =>
    if lastOp.hasOutv then some parts
    else some (parts.take n ++ [.concatAll n])

/-- The rendering options of the assembler (`AssemblyOptions` in
`assembler.ts`); width/height/fps are optional with JavaScript `||`
defaults 1920/1080/30. -/
structure AssemblyOptions where
  outputPath : String
  width : Option ℚ
  height : Option ℚ
  fps : Option ℚ
deriving DecidableEq

/-- The plan shape produced by assembleWithTransitions (`assembler.ts`):
the single-asset path applies one `-vf` scale/pad/setsar/fps chain and
no filter graph; the multi-asset path runs a `filter_complex` with the
computed parts. -/
inductive TransPlan where
  | singleNormalize (width height fps : ℚ)
  | complexFilter (parts : List FilterOp)
deriving DecidableEq

/-- assembleWithTransitions (`assembler.ts`) as a plan builder: the
declarative filter plan handed to ffmpeg (the external renderer). -/
def assembleWithTransitionsPlan (assets : List ResolvedAsset) (scenes : List Scene)
    (options : AssemblyOptions) : Option TransPlan :=
  let width := jsOrQ options.width 1920
  let height := jsOrQ options.height 1080
  let fps := jsOrQ options.fps 30
  if assets.length = 1 then some (.singleNormalize width height fps)
  else
    let st := buildChain assets.length scenes width height fps
    (finalizeParts assets.length st.parts).map .complexFilter

/-- The plan shape produced by assembleSimple (`assembler.ts`): a
concat-demuxer input listing every asset's local path, and a single
output `-vf` option holding one scale/pad/setsar/fps chain applied to
the concatenated stream. -/
structure SimplePlan where
  concatList : List String
  vf : List FilterOp
deriving DecidableEq

/-- assembleSimple (`assembler.ts`) as a plan builder: concat-demuxer
file plus exactly the one `-vf scale=...,pad=...,setsar=1,fps=...`
output option written in the source. -/
def assembleSimplePlan (assets : List ResolvedAsset) (options : AssemblyOptions) : SimplePlan :=
  let width := jsOrQ options.width 1920
  let height := jsOrQ options.height 1080
  let fps := jsOrQ options.fps 30
  { concatList := assets.map (·.localPath)
    vf := [.scale 0 width height fps] }

/-- Number of scale/pad/setsar/fps normalization steps in a simple
plan. -/
def SimplePlan.normalizeCount (p : SimplePlan) : Nat :=
  p.vf.countP FilterOp.isNormalize

/-- Number of scale/pad/setsar/fps normalization steps in a
transitions plan. -/
def TransPlan.normalizeCount : TransPlan → Nat
  | .singleNormalize _ _ _ => 1
  | .complexFilter parts => parts.countP FilterOp.isNormalize

/-- The storyboard-level dispatch of assembleStoryboard
(`assembler.ts`): the transitions path when some scene has a non-cut
transition in or out, the simple concatenation path otherwise. -/
def hasTransitions (scenes : List Scene) : Bool :=
  scenes.any (fun s => decide (s.transitionIn ≠ .cut) || decide (s.transitionOut ≠ .cut))

/-- The overall plan produced by assembleStoryboard (`assembler.ts`). -/
inductive AssemblyPlan where
  | simple (p : SimplePlan)
  | withTransitions (p : Option TransPlan)
deriving DecidableEq

/-- assembleStoryboard (`assembler.ts`) as a plan builder. -/
def assembleStoryboardPlan (sb : Storyboard) (assets : List ResolvedAsset)
    (outputPath : String) : AssemblyPlan :=
  let options : AssemblyOptions :=
    { outputPath := outputPath
      width := some sb.outputResolution.1
      height := some sb.outputResolution.2
      fps := some sb.outputFps }
  if hasTransitions sb.scenes then
    .withTransitions (assembleWithTransitionsPlan assets sb.scenes options)
  else
    .simple (assembleSimplePlan assets options)

/-- A row of the `scene_matches` table (`db` schema): the columns that
the production job reads back (`matchResult[0].assetPath`) together with
the ones written by the match and override routes. -/
structure SceneMatchRow where
  storyboardId : String
  sceneId : String
  assetId : String
  assetPath : String
  source : String
  compositeScore : ℚ
  needsReview : Bool
deriving DecidableEq

/-- What a single scene contributes during processProductionJob
(`routes/storyboards.ts`). -/
inductive SceneAction where
  | reuse (assetId : String) (localPath : String)
  | generate
deriving DecidableEq

/-- The external calls a scene's production step can make:
a `scene_matches` lookup, a video-generation request
(`generateVideoForScene`), or a candidate search
(`matchSceneToAssets`); processProductionJob never performs the last. -/
inductive Effect where
  | matchLookup (sceneId : String)
  | generation (sceneId : String)
  | searchQuery (sceneId : String)
deriving DecidableEq

/-- The per-scene body of processProductionJob
(`routes/storyboards.ts`): when the scene has a truthy `matchedAssetId`
and `assetSource === 'existing'`, look the scene up in `scene_matches`
and, if a row is found, reuse it; in every other case (including a
missing row, and any non-`existing` source such as `manual`) fall
through to `generateVideoForScene`.  `lookup` is the first
`scene_matches` row for the scene's id. -/
def sceneStep (lookup : Option SceneMatchRow) (scene : Scene) :
    List Effect × SceneAction :=
  if truthyOptStr scene.matchedAssetId &&
      decide (scene.assetSource = some AssetSource.existing) then
    match lookup with
    | some row =>
      ([.matchLookup scene.sceneId],
        .reuse (scene.matchedAssetId.getD "") row.assetPath)
    | none => ([.matchLookup scene.sceneId, .generation scene.sceneId], .generate)
  else ([.generation scene.sceneId], .generate)

/-- The scene-resolution loop of processProductionJob
(`routes/storyboards.ts`) over the whole storyboard: the concatenated
effect traces of every scene's step. -/
def productionEffects (lookup : String → Option SceneMatchRow)
    (scenes : List Scene) : List Effect :=
  (scenes.map (fun sc => (sceneStep (lookup sc.sceneId) sc).1)).flatten

/-- Recognizer for generation effects. -/
def Effect.isGeneration : Effect → Bool
  | .generation _ => true
  | _ => false

/-- Recognizer for candidate-search effects. -/
def Effect.isSearchQuery : Effect → Bool
  | .searchQuery _ => true
  | _ => false

/-- Number of video generations performed by one production run. -/
def productionGenerationCount (lookup : String → Option SceneMatchRow)
    (scenes : List Scene) : Nat :=
  (productionEffects lookup scenes).countP Effect.isGeneration

/-- Sum of the squares of a vector's entries: the `normA`/`normB`
accumulators of cosineSimilarity (`matcher.ts`). -/
def sumSq (a : List ℝ) : ℝ := (a.map (fun x => x * x)).sum

/-- The `dotProduct` accumulator of cosineSimilarity (`matcher.ts`). -/
def dotProd (a b : List ℝ) : ℝ := (List.zipWith (fun x y => x * y) a b).sum

/-- cosineSimilarity (`matcher.ts`): 0 on mismatched lengths, 0 when
the denominator `sqrt(normA) * sqrt(normB)` is 0, and the normalized dot
product otherwise.  JavaScript floating-point numbers are modelled as
reals. -/
noncomputable def cosineSimilarity (a b : List ℝ) : ℝ :=
  if a.length ≠ b.length then 0
  else
    let denominator := Real.sqrt (sumSq a) * Real.sqrt (sumSq b)
    if denominator = 0 then 0 else dotProd a b / denominator

theorem dotProd_comm (a b : List ℝ) : dotProd a b = dotProd b a := by
  unfold dotProd
  rw [List.zipWith_comm_of_comm (fun x y => x * y) mul_comm]

theorem cosineSimilarity_comm (a b : List ℝ) :
    cosineSimilarity a b = cosineSimilarity b a := by
  unfold cosineSimilarity
  rcases eq_or_ne a.length b.length with h | h
  · rw [h]
    simp only [ne_eq, not_true_eq_false, if_false]
    rw [dotProd_comm, mul_comm (Real.sqrt (sumSq a))]
  · rw [if_pos h, if_pos (Ne.symm h)]

theorem sumSq_nonneg (a : List ℝ) : 0 ≤ sumSq a := by
  unfold sumSq
  apply List.sum_nonneg
  intro x hx
  obtain ⟨y, _, rfl⟩ := List.mem_map.1 hx
  exact mul_self_nonneg y

theorem sumSq_pos (a : List ℝ) (h : ∃ x ∈ a, x ≠ 0) : 0 < sumSq a := by
  obtain ⟨x, hx, hx0⟩ := h
  have h1 : ∀ y ∈ a.map (fun z => z * z), 0 ≤ y := by
    intro y hy
    obtain ⟨z, _, rfl⟩ := List.mem_map.1 hy
    exact mul_self_nonneg z
  have h2 : x * x ≤ sumSq a :=
    List.single_le_sum h1 _ (List.mem_map_of_mem _ hx)
  exact lt_of_lt_of_le (mul_self_pos.2 hx0) h2

theorem cosineSimilarity_self (a : List ℝ) (h : ∃ x ∈ a, x ≠ 0) :
    cosineSimilarity a a = 1 := by
  have hpos : 0 < sumSq a := sumSq_pos a h
  have hdot : dotProd a a = sumSq a := by
    unfold dotProd sumSq
    rw [List.zipWith_same]
  have hsq : Real.sqrt (sumSq a) * Real.sqrt (sumSq a) = sumSq a :=
    Real.mul_self_sqrt hpos.le
  unfold cosineSimilarity
  rw [if_neg (by simp)]
  simp only [hsq, hdot]
  rw [if_neg hpos.ne', div_self hpos.ne']

theorem cosineSimilarity_length_ne (a b : List ℝ) (h : a.length ≠ b.length) :
    cosineSimilarity a b = 0 := by
  unfold cosineSimilarity
  rw [if_pos h]

theorem cosineSimilarity_sumSq_left_zero (a b : List ℝ) (h : sumSq a = 0) :
    cosineSimilarity a b = 0 := by
  unfold cosineSimilarity
  rcases eq_or_ne a.length b.length with hl | hl
  · rw [if_neg (by simp [hl])]
    simp [h, Real.sqrt_zero]
  · rw [if_pos hl]

theorem cosineSimilarity_sumSq_right_zero (a b : List ℝ) (h : sumSq b = 0) :
    cosineSimilarity a b = 0 := by
  rw [cosineSimilarity_comm]
  exact cosineSimilarity_sumSq_left_zero b a h

/-- C10: cosineSimilarity is symmetric; it is 1 on any nonzero vector
paired with itself; it is 0 on mismatched lengths; and it is 0 whenever
either argument has zero norm (in particular on zero-length vectors). -/
theorem cosineSimilarity_spec :
    (∀ a b : List ℝ, cosineSimilarity a b = cosineSimilarity b a) ∧
    (∀ a : List ℝ, (∃ x ∈ a, x ≠ 0) → cosineSimilarity a a = 1) ∧
    (∀ a b : List ℝ, a.length ≠ b.length → cosineSimilarity a b = 0) ∧
    (∀ a b : List ℝ, sumSq a = 0 → cosineSimilarity a b = 0) ∧
    (∀ a b : List ℝ, sumSq b = 0 → cosineSimilarity a b = 0) :=
  ⟨cosineSimilarity_comm, cosineSimilarity_self, cosineSimilarity_length_ne,
    cosineSimilarity_sumSq_left_zero, cosineSimilarity_sumSq_right_zero⟩

/-- Witness for C10: the hypothesised parts of `cosineSimilarity_spec`
evaluated at concrete vectors. -/
theorem cosineSimilarity_spec_witness :
    ((∃ x ∈ ([1] : List ℝ), x ≠ 0) ∧ cosineSimilarity [1] [1] = 1) ∧
    (([1, 2] : List ℝ).length ≠ ([1] : List ℝ).length ∧
      cosineSimilarity [1, 2] [1] = 0) ∧
    (sumSq ([] : List ℝ) = 0 ∧ cosineSimilarity ([] : List ℝ) [] = 0) := by
  refine ⟨⟨⟨1, by simp, one_ne_zero⟩,
    cosineSimilarity_spec.2.1 [1] ⟨1, by simp, one_ne_zero⟩⟩,
    ⟨by simp, cosineSimilarity_spec.2.2.1 [1, 2] [1] (by simp)⟩,
    ⟨rfl, cosineSimilarity_spec.2.2.2.1 [] [] rfl⟩⟩

/-- C9: the CONFIG weights sum to 1, and for sub-scores each in [0, 1]
the composite score computed by calculateCompositeScore lies in [0, 1]. -/
theorem calculateCompositeScore_in_unit_interval :
    (WEIGHTS_semanticSimilarity + WEIGHTS_styleMatch + WEIGHTS_useCaseMatch +
      WEIGHTS_qualityScore + WEIGHTS_durationFit = 1) ∧
    (∀ s : Scores, 0 ≤ s.semantic → s.semantic ≤ 1 → 0 ≤ s.style → s.style ≤ 1 →
      0 ≤ s.useCase → s.useCase ≤ 1 → 0 ≤ s.quality → s.quality ≤ 1 →
      0 ≤ s.duration → s.duration ≤ 1 →
      0 ≤ calculateCompositeScore s ∧ calculateCompositeScore s ≤ 1) := by
  constructor
  · norm_num [WEIGHTS_semanticSimilarity, WEIGHTS_styleMatch, WEIGHTS_useCaseMatch,
      WEIGHTS_qualityScore, WEIGHTS_durationFit]
  · intro s h1 h2 h3 h4 h5 h6 h7 h8 h9 h10
    simp only [calculateCompositeScore, WEIGHTS_semanticSimilarity, WEIGHTS_styleMatch,
      WEIGHTS_useCaseMatch, WEIGHTS_qualityScore, WEIGHTS_durationFit]
    constructor <;> nlinarith

/-- Witness for C9: the bounds instantiated at a concrete score
vector. -/
theorem calculateCompositeScore_in_unit_interval_witness :
    0 ≤ calculateCompositeScore ⟨1, 0.5, 0.5, 0.3, 0.5⟩ ∧
      calculateCompositeScore ⟨1, 0.5, 0.5, 0.3, 0.5⟩ ≤ 1 :=
  calculateCompositeScore_in_unit_interval.2 ⟨1, 0.5, 0.5, 0.3, 0.5⟩
    (by norm_num) (by norm_num) (by norm_num) (by norm_num) (by norm_num)
    (by norm_num) (by norm_num) (by norm_num) (by norm_num) (by norm_num)

theorem scoreAsset_eq_some (sim : List ℚ → List ℚ → ℚ) (emb : List ℚ)
    (scene : Scene) (asset : LanceDBAsset) (m : AssetMatch)
    (h : scoreAsset sim emb scene asset = some m) :
    THRESHOLDS_semanticMinimum ≤ m.semanticScore ∧
      m.needsReview = needsReviewOf m.compositeScore ∧
      m.semanticScore = semanticScoreOf sim emb asset := by
  simp only [scoreAsset] at h
  split at h
  · exact Option.noConfusion h
  · next hc =>
    rw [Option.some.injEq] at h
    subst h
    exact ⟨not_lt.1 hc, rfl, rfl⟩

theorem mem_matchSceneToAssets (sim : List ℚ → List ℚ → ℚ) (emb : List ℚ)
    (scene : Scene) (cands : List LanceDBAsset) (m : AssetMatch) :
    m ∈ matchSceneToAssets sim emb scene cands ↔
      ∃ a ∈ cands, scoreAsset sim emb scene a = some m := by
  unfold matchSceneToAssets
  rw [List.mem_mergeSort, List.mem_filterMap]

theorem getBestMatch_mem (ms : List AssetMatch) (m : AssetMatch)
    (h : getBestMatch ms = some m) : m ∈ ms := by
  cases ms with
  | nil => exact Option.noConfusion h
  | cons t r =>
    simp only [getBestMatch] at h
    split at h
    · rw [Option.some.injEq] at h
      subst h
      exact List.mem_cons_self t r
    · exact Option.noConfusion h

/-- C4: a candidate that carries no embedding vector is assigned the
default semantic score 0.7, which is strictly below the semantic floor
0.72, so the scoring loop skips it; consequently every match in the
returned list arises from a vector-carrying candidate, for every
similarity function. -/
theorem vectorless_candidates_discarded :
    (∀ (sim : List ℚ → List ℚ → ℚ) (emb : List ℚ) (asset : LanceDBAsset),
      asset.vector = none → semanticScoreOf sim emb asset = 0.7) ∧
    ((0.7 : ℚ) < THRESHOLDS_semanticMinimum ∧ THRESHOLDS_semanticMinimum = 0.72) ∧
    (∀ (sim : List ℚ → List ℚ → ℚ) (emb : List ℚ) (scene : Scene)
      (asset : LanceDBAsset), asset.vector = none →
      scoreAsset sim emb scene asset = none) ∧
    (∀ (sim : List ℚ → List ℚ → ℚ) (emb : List ℚ) (scene : Scene)
      (cands : List LanceDBAsset) (m : AssetMatch),
      m ∈ matchSceneToAssets sim emb scene cands →
      ∃ a ∈ cands, a.vector.isSome = true ∧ scoreAsset sim emb scene a = some m) := by
  have hsem : ∀ (sim : List ℚ → List ℚ → ℚ) (emb : List ℚ) (asset : LanceDBAsset),
      asset.vector = none → semanticScoreOf sim emb asset = 0.7 := by
    intro sim emb asset h
    simp [semanticScoreOf, h]
  have hskip : ∀ (sim : List ℚ → List ℚ → ℚ) (emb : List ℚ) (scene : Scene)
      (asset : LanceDBAsset), asset.vector = none →
      scoreAsset sim emb scene asset = none := by
    intro sim emb scene asset h
    simp only [scoreAsset, hsem sim emb asset h]
    rw [if_pos (by norm_num [THRESHOLDS_semanticMinimum])]
  refine ⟨hsem, ⟨by norm_num [THRESHOLDS_semanticMinimum], rfl⟩, hskip, ?_⟩
  intro sim emb scene cands m hm
  obtain ⟨a, ha, hsc⟩ := (mem_matchSceneToAssets sim emb scene cands m).1 hm
  refine ⟨a, ha, ?_, hsc⟩
  cases hv : a.vector with
  | none => rw [hskip sim emb scene a hv] at hsc; exact Option.noConfusion hsc
  | some v => rfl

/-- C6: no candidate whose semantic score is below the semantic floor
0.72 ever appears in the sorted list returned by matchSceneToAssets,
nor is ever selected by getBestMatch, for every similarity function. -/
theorem semantic_floor_spec :
    (∀ (sim : List ℚ → List ℚ → ℚ) (emb : List ℚ) (scene : Scene)
      (cands : List LanceDBAsset), ∀ m ∈ matchSceneToAssets sim emb scene cands,
      THRESHOLDS_semanticMinimum ≤ m.semanticScore) ∧
    (∀ (sim : List ℚ → List ℚ → ℚ) (emb : List ℚ) (scene : Scene)
      (cands : List LanceDBAsset) (m : AssetMatch),
      getBestMatch (matchSceneToAssets sim emb scene cands) = some m →
      THRESHOLDS_semanticMinimum ≤ m.semanticScore) := by
  have h1 : ∀ (sim : List ℚ → List ℚ → ℚ) (emb : List ℚ) (scene : Scene)
      (cands : List LanceDBAsset), ∀ m ∈ matchSceneToAssets sim emb scene cands,
      THRESHOLDS_semanticMinimum ≤ m.semanticScore := by
    intro sim emb scene cands m hm
    obtain ⟨a, _, hsc⟩ := (mem_matchSceneToAssets sim emb scene cands m).1 hm
    exact (scoreAsset_eq_some sim emb scene a m hsc).1
  exact ⟨h1, fun sim emb scene cands m hb =>
    h1 sim emb scene cands m (getBestMatch_mem _ m hb)⟩

/-- C7: getBestMatch returns the top match exactly when its composite
score reaches the composite floor (and `none` on the empty list);
shouldGenerate is true exactly when getBestMatch is `none`; and the
production step of a scene that is not resolved as `existing` performs
exactly one generation call and no candidate-search query. -/
theorem getBestMatch_threshold_spec :
    (getBestMatch [] = none ∧ shouldGenerate [] = true) ∧
    (∀ (topMatch : AssetMatch) (rest : List AssetMatch),
      (THRESHOLDS_compositeMinimum ≤ topMatch.compositeScore →
        getBestMatch (topMatch :: rest) = some topMatch) ∧
      (topMatch.compositeScore < THRESHOLDS_compositeMinimum →
        getBestMatch (topMatch :: rest) = none)) ∧
    (∀ ms : List AssetMatch, shouldGenerate ms = true ↔ getBestMatch ms = none) ∧
    (∀ (lookup : Option SceneMatchRow) (scene : Scene),
      ((sceneStep lookup scene).2 = SceneAction.generate →
        (sceneStep lookup scene).1.countP Effect.isGeneration = 1) ∧
      (sceneStep lookup scene).1.countP Effect.isSearchQuery = 0) := by
  refine ⟨⟨rfl, rfl⟩, ?_, ?_, ?_⟩
  · intro t r
    constructor
    · intro h
      simp [getBestMatch, h]
    · intro h
      simp [getBestMatch, not_le.2 h]
  · intro ms
    cases ms with
    | nil => simp [shouldGenerate, getBestMatch]
    | cons t r =>
      by_cases hc : THRESHOLDS_compositeMinimum ≤ t.compositeScore
      · simp [shouldGenerate, getBestMatch, hc, not_lt.2 hc]
      · simp [shouldGenerate, getBestMatch, hc, lt_of_not_le hc]
  · intro lookup scene
    cases hb : (truthyOptStr scene.matchedAssetId &&
        decide (scene.assetSource = some AssetSource.existing)) with
    | false =>
      simp [sceneStep, hb, Effect.isGeneration, Effect.isSearchQuery,
        List.countP_cons, List.countP_nil]
    | true =>
      cases lookup with
      | some row =>
        simp [sceneStep, hb, Effect.isGeneration, Effect.isSearchQuery,
          List.countP_cons, List.countP_nil]
      | none =>
        simp [sceneStep, hb, Effect.isGeneration, Effect.isSearchQuery,
          List.countP_cons, List.countP_nil]

/-- C8: the review flag computed by the scoring loop is true exactly
when the composite score lies in [compositeMinimum, excellentMatch) =
[0.78, 0.90); in particular composite 0.95 gives review `false`,
composite 0.80 gives review `true`, and any top match at or above the
composite floor is selected by getBestMatch. -/
theorem needsReview_band_spec :
    (∀ c : ℚ, needsReviewOf c = true ↔
      (THRESHOLDS_compositeMinimum ≤ c ∧ c < THRESHOLDS_excellentMatch)) ∧
    (∀ (sim : List ℚ → List ℚ → ℚ) (emb : List ℚ) (scene : Scene)
      (cands : List LanceDBAsset) (m : AssetMatch),
      m ∈ matchSceneToAssets sim emb scene cands →
      m.needsReview = needsReviewOf m.compositeScore) ∧
    (needsReviewOf 0.95 = false ∧ needsReviewOf 0.80 = true) ∧
    (∀ (topMatch : AssetMatch) (rest : List AssetMatch),
      THRESHOLDS_compositeMinimum ≤ topMatch.compositeScore →
      getBestMatch (topMatch :: rest) = some topMatch) := by
  refine ⟨?_, ?_, ⟨?_, ?_⟩, ?_⟩
  · intro c
    simp [needsReviewOf, Bool.and_eq_true, decide_eq_true_eq, ge_iff_le]
  · intro sim emb scene cands m hm
    obtain ⟨a, _, hsc⟩ := (mem_matchSceneToAssets sim emb scene cands m).1 hm
    exact (scoreAsset_eq_some sim emb scene a m hsc).2.1
  · simp only [needsReviewOf, THRESHOLDS_compositeMinimum, THRESHOLDS_excellentMatch]
    norm_num
  · simp only [needsReviewOf, THRESHOLDS_compositeMinimum, THRESHOLDS_excellentMatch]
    norm_num
  · intro t r h
    simp [getBestMatch, h]

/-- A constant similarity function used for concrete evaluations. -/
def simConst (q : ℚ) : List ℚ → List ℚ → ℚ := fun _ _ => q

/-- A minimal scene used for concrete evaluations. -/
def sampleScene : Scene :=
  ⟨"sc1", 1, 4, "", [], none, .cut, .cut, none, none, none, false⟩

/-- A vector-carrying candidate with no further metadata. -/
def sampleAsset : LanceDBAsset :=
  ⟨"a1", "a1.mp4", "/assets/a1.mp4", "stock", "video", none, none, none, none,
    none, none, none, none, some []⟩

/-- The match produced for `sampleAsset` under similarity 0.8:
sub-scores (0.8, 0.5, 0.5, 0.3, 0.5), composite 0.63, no review. -/
def sampleMatchResult : AssetMatch :=
  ⟨"a1", "/assets/a1.mp4", 0.8, 0.5, 0.5, 0.3, 0.5, 0.63, false⟩

theorem sample_match_eval :
    matchSceneToAssets (simConst 0.8) [] sampleScene [sampleAsset] =
      [sampleMatchResult] := by
  have hs : scoreAsset (simConst 0.8) [] sampleScene sampleAsset =
      some sampleMatchResult := by
    simp only [scoreAsset, semanticScoreOf, simConst, sampleAsset, sampleScene,
      calculateStyleScore, calculateUseCaseScore, calculateQualityScore,
      calculateDurationScore, calculateCompositeScore, needsReviewOf, jsOrQ,
      THRESHOLDS_semanticMinimum, THRESHOLDS_compositeMinimum,
      THRESHOLDS_excellentMatch, WEIGHTS_semanticSimilarity, WEIGHTS_styleMatch,
      WEIGHTS_useCaseMatch, WEIGHTS_qualityScore, WEIGHTS_durationFit,
      sampleMatchResult, List.map_nil, List.dedup_nil, Option.getD_none]
    norm_num
  unfold matchSceneToAssets
  rw [List.filterMap_cons]
  simp only [hs, List.filterMap_nil, List.mergeSort_singleton]

/-- A candidate with full-HD resolution and a long enough video, used
to produce a composite score of exactly 0.80. -/
def reviewAsset : LanceDBAsset :=
  ⟨"a2", "a2.mp4", "/assets/a2.mp4", "stock", "video", none, none, none, none,
    some 1920, some 1080, some 10, some 30, some []⟩

/-- The match produced for `reviewAsset` under similarity 0.95:
sub-scores (0.95, 0.5, 0.5, 1, 1), composite 0.80, review `true`. -/
def reviewMatchResult : AssetMatch :=
  ⟨"a2", "/assets/a2.mp4", 0.95, 0.5, 0.5, 1, 1, 0.80, true⟩

theorem review_match_eval :
    matchSceneToAssets (simConst 0.95) [] sampleScene [reviewAsset] =
      [reviewMatchResult] := by
  have hs : scoreAsset (simConst 0.95) [] sampleScene reviewAsset =
      some reviewMatchResult := by
    simp only [scoreAsset, semanticScoreOf, simConst, reviewAsset, sampleScene,
      calculateStyleScore, calculateUseCaseScore, calculateQualityScore,
      calculateDurationScore, calculateCompositeScore, needsReviewOf, jsOrQ,
      THRESHOLDS_semanticMinimum, THRESHOLDS_compositeMinimum,
      THRESHOLDS_excellentMatch, WEIGHTS_semanticSimilarity, WEIGHTS_styleMatch,
      WEIGHTS_useCaseMatch, WEIGHTS_qualityScore, WEIGHTS_durationFit,
      reviewMatchResult, List.map_nil, List.dedup_nil, Option.getD_none]
    norm_num
  unfold matchSceneToAssets
  rw [List.filterMap_cons]
  simp only [hs, List.filterMap_nil, List.mergeSort_singleton]

/-- A candidate that carries no embedding vector. -/
def vectorlessAsset : LanceDBAsset :=
  ⟨"a0", "a0.mp4", "/assets/a0.mp4", "stock", "image", none, none, none, none,
    none, none, none, none, none⟩

/-- Witness for C4: a vector-less candidate is skipped, and a returned
match is traced back to a vector-carrying candidate. -/
theorem vectorless_candidates_discarded_witness :
    (vectorlessAsset.vector = none ∧
      scoreAsset (simConst 0.8) [] sampleScene vectorlessAsset = none) ∧
    (sampleMatchResult ∈ matchSceneToAssets (simConst 0.8) [] sampleScene [sampleAsset] ∧
      ∃ a ∈ [sampleAsset], a.vector.isSome = true ∧
        scoreAsset (simConst 0.8) [] sampleScene a = some sampleMatchResult) := by
  have hm : sampleMatchResult ∈
      matchSceneToAssets (simConst 0.8) [] sampleScene [sampleAsset] := by
    rw [sample_match_eval]
    exact List.mem_singleton.2 rfl
  exact ⟨⟨rfl, vectorless_candidates_discarded.2.2.1 (simConst 0.8) [] sampleScene
      vectorlessAsset rfl⟩,
    ⟨hm, vectorless_candidates_discarded.2.2.2 (simConst 0.8) [] sampleScene
      [sampleAsset] sampleMatchResult hm⟩⟩

/-- Witness for C6: the produced match's semantic score is above the
semantic floor. -/
theorem semantic_floor_spec_witness :
    sampleMatchResult ∈ matchSceneToAssets (simConst 0.8) [] sampleScene [sampleAsset] ∧
      THRESHOLDS_semanticMinimum ≤ sampleMatchResult.semanticScore := by
  have hm : sampleMatchResult ∈
      matchSceneToAssets (simConst 0.8) [] sampleScene [sampleAsset] := by
    rw [sample_match_eval]
    exact List.mem_singleton.2 rfl
  exact ⟨hm, semantic_floor_spec.1 (simConst 0.8) [] sampleScene [sampleAsset]
    sampleMatchResult hm⟩

/-- A match with composite score 0.95. -/
def sampleTopMatch : AssetMatch := ⟨"a9", "/assets/a9.mp4", 0.9, 1, 1, 1, 1, 0.95, false⟩

/-- A scene marked for generation by the match route
(`assetSource = 'generated'`, no matched asset id). -/
def generateScene : Scene :=
  ⟨"sc_g", 2, 3, "forest", [], none, .cut, .cut, none, none, some .generated, false⟩

/-- Witness for C7: a top match at composite 0.95 is selected, and the
production step of an unresolved scene performs exactly one generation
call. -/
theorem getBestMatch_threshold_spec_witness :
    (THRESHOLDS_compositeMinimum ≤ sampleTopMatch.compositeScore ∧
      getBestMatch [sampleTopMatch] = some sampleTopMatch) ∧
    ((sceneStep none generateScene).2 = SceneAction.generate ∧
      (sceneStep none generateScene).1.countP Effect.isGeneration = 1 ∧
      (sceneStep none generateScene).1.countP Effect.isSearchQuery = 0) := by
  have hc : THRESHOLDS_compositeMinimum ≤ sampleTopMatch.compositeScore := by
    norm_num [THRESHOLDS_compositeMinimum, sampleTopMatch]
  have hg : (sceneStep none generateScene).2 = SceneAction.generate := rfl
  exact ⟨⟨hc, (getBestMatch_threshold_spec.2.1 sampleTopMatch []).1 hc⟩,
    ⟨hg, (getBestMatch_threshold_spec.2.2.2 none generateScene).1 hg,
      (getBestMatch_threshold_spec.2.2.2 none generateScene).2⟩⟩

/-- Witness for C8: the produced match with composite 0.80 carries
review flag `true`, and a top match at the floor is selected. -/
theorem needsReview_band_spec_witness :
    (reviewMatchResult ∈ matchSceneToAssets (simConst 0.95) [] sampleScene [reviewAsset] ∧
      reviewMatchResult.needsReview = needsReviewOf reviewMatchResult.compositeScore) ∧
    (THRESHOLDS_compositeMinimum ≤ reviewMatchResult.compositeScore ∧
      getBestMatch [reviewMatchResult] = some reviewMatchResult) := by
  have hm : reviewMatchResult ∈
      matchSceneToAssets (simConst 0.95) [] sampleScene [reviewAsset] := by
    rw [review_match_eval]
    exact List.mem_singleton.2 rfl
  have hc : THRESHOLDS_compositeMinimum ≤ reviewMatchResult.compositeScore := by
    norm_num [THRESHOLDS_compositeMinimum, reviewMatchResult]
  exact ⟨⟨hm, needsReview_band_spec.2.1 (simConst 0.95) [] sampleScene [reviewAsset]
      reviewMatchResult hm⟩,
    ⟨hc, needsReview_band_spec.2.2.2 reviewMatchResult [] hc⟩⟩

/-- A scene resolved by the manual-override route
(`POST /:storyboardId/scenes/:sceneId/override`): matched asset id set,
match score 1.0, source `manual`, review `false`. -/
def manualScene : Scene :=
  ⟨"sc_m", 1, 4, "city skyline", [], none, .cut, .cut, some "asset_7", some 1,
    some .manual, false⟩

/-- The same resolution but with source `existing` (as written by the
match route). -/
def existingScene : Scene :=
  ⟨"sc_e", 2, 4, "city skyline", [], none, .cut, .cut, some "asset_7", some 1,
    some .existing, false⟩

/-- The `scene_matches` row inserted by the override route. -/
def manualRow : SceneMatchRow :=
  ⟨"sb1", "sc_m", "asset_7", "/assets/asset_7.mp4", "manual", 1, false⟩

/-- A `scene_matches` lookup that finds `manualRow` for every scene. -/
def manualLookup : String → Option SceneMatchRow := fun _ => some manualRow

/-- C1: the production job's reuse guard tests
`scene.assetSource === 'existing'` only, so a scene that carries a prior
`manual` resolution (with its match row present) is regenerated — one
generation instead of the zero the specification requires — while an
otherwise identical `existing` resolution is reused. -/
theorem manual_resolution_regenerated :
    (truthyOptStr manualScene.matchedAssetId = true ∧
      manualScene.assetSource = some AssetSource.manual) ∧
    (sceneStep (some manualRow) manualScene).2 = SceneAction.generate ∧
    productionGenerationCount manualLookup [manualScene] = 1 ∧
    (sceneStep (some manualRow) existingScene).2 =
      SceneAction.reuse "asset_7" "/assets/asset_7.mp4" :=
  ⟨⟨rfl, rfl⟩, rfl, rfl, rfl⟩

theorem scaleParts_length (n : Nat) (w hq f : ℚ) :
    (scaleParts n w hq f).length = n := by
  simp [scaleParts]

theorem scaleParts_flags (n : Nat) (w hq f : ℚ) :
    ∀ op ∈ scaleParts n w hq f, op.isNormalize = true ∧ op.hasOutv = false := by
  intro op hop
  obtain ⟨i, _, rfl⟩ := List.mem_map.1 hop
  exact ⟨rfl, rfl⟩

theorem junctionStep_not_last (n : Nat) (scenes : List Scene) (st : ChainState)
    (i : Nat) (hi : i ≠ n - 1) (hcur : st.currentInput ≠ .outv) :
    ∃ op : FilterOp, (junctionStep n scenes st i).parts = st.parts ++ [op] ∧
      op.isNormalize = false ∧ op.hasOutv = false ∧
      (junctionStep n scenes st i).currentInput ≠ .outv := by
  simp only [junctionStep]
  by_cases ht : jsSceneTransitionOut scenes (i - 1) = TransitionType.cut
  · rw [if_neg (by simp [ht]), if_neg hi]
    exact ⟨_, rfl, rfl, by simp [FilterOp.hasOutv, hcur], by simp⟩
  · rw [if_pos ht, if_neg hi]
    rw [if_neg (by simp : ¬(FLabel.xf i = FLabel.outv))]
    exact ⟨_, rfl, rfl, by simp [FilterOp.hasOutv, hcur], by simp⟩

theorem junctionStep_last (n : Nat) (scenes : List Scene) (st : ChainState)
    (i : Nat) (hi : i = n - 1) :
    ∃ op : FilterOp, (junctionStep n scenes st i).parts = st.parts ++ [op] ∧
      op.isNormalize = false ∧ op.hasOutv = true := by
  simp only [junctionStep]
  by_cases ht : jsSceneTransitionOut scenes (i - 1) = TransitionType.cut
  · rw [if_neg (by simp [ht]), if_pos hi]
    exact ⟨_, rfl, rfl, by simp [FilterOp.hasOutv]⟩
  · rw [if_pos ht, if_pos hi]
    exact ⟨_, rfl, rfl, by simp [FilterOp.hasOutv]⟩

theorem foldl_junction_inv (n : Nat) (scenes : List Scene) (L : List Nat)
    (hL : ∀ i ∈ L, i ≠ n - 1) :
    ∀ st : ChainState, st.currentInput ≠ .outv →
    ∃ rest : List FilterOp,
      (L.foldl (junctionStep n scenes) st).parts = st.parts ++ rest ∧
      rest.length = L.length ∧
      (∀ op ∈ rest, op.isNormalize = false ∧ op.hasOutv = false) ∧
      (L.foldl (junctionStep n scenes) st).currentInput ≠ .outv := by
  induction L with
  | nil =>
    intro st hcur
    exact ⟨[], by simp, rfl, by simp, hcur⟩
  | cons i L ih =>
    intro st hcur
    obtain ⟨op, hp, hnrm, hout, hc⟩ :=
      junctionStep_not_last n scenes st i (hL i (by simp)) hcur
    obtain ⟨rest, hp', hlen, hall, hc'⟩ :=
      ih (fun j hj => hL j (by simp [hj])) (junctionStep n scenes st i) hc
    refine ⟨op :: rest, ?_, by simp [hlen], ?_, hc'⟩
    · rw [List.foldl_cons, hp', hp, List.append_assoc]
      rfl
    · intro o hmem
      rcases List.mem_cons.1 hmem with h | h
      · subst h
        exact ⟨hnrm, hout⟩
      · exact hall o h

theorem buildChain_parts_structure (n : Nat) (hn : 2 ≤ n) (scenes : List Scene)
    (w hq f : ℚ) :
    ∃ (junctions : List FilterOp) (lastOp : FilterOp),
      (buildChain n scenes w hq f).parts =
        scaleParts n w hq f ++ junctions ++ [lastOp] ∧
      junctions.length = n - 2 ∧
      (∀ op ∈ junctions, op.isNormalize = false ∧ op.hasOutv = false) ∧
      lastOp.isNormalize = false ∧ lastOp.hasOutv = true := by
  have hsplit : List.range' 1 (n - 1) = List.range' 1 (n - 2) ++ [n - 1] := by
    have h1 : n - 1 = (n - 2) + 1 := by omega
    rw [h1, List.range'_concat]
    congr 1
    simp
    omega
  have hmem : ∀ i ∈ List.range' 1 (n - 2), i ≠ n - 1 := by
    intro i hi
    rw [List.mem_range'] at hi
    obtain ⟨k, hk, rfl⟩ := hi
    omega
  obtain ⟨rest, hp, hlen, hall, hc⟩ :=
    foldl_junction_inv n scenes (List.range' 1 (n - 2)) hmem
      ⟨.v 0, 0, scaleParts n w hq f⟩ (by simp)
  obtain ⟨lastOp, hp2, hnrm2, hout2⟩ :=
    junctionStep_last n scenes
      ((List.range' 1 (n - 2)).foldl (junctionStep n scenes)
        ⟨.v 0, 0, scaleParts n w hq f⟩) (n - 1) rfl
  refine ⟨rest, lastOp, ?_, by simp [hlen, List.length_range'], hall, hnrm2, hout2⟩
  unfold buildChain
  rw [hsplit, List.foldl_append, List.foldl_cons, List.foldl_nil, hp2, hp]

theorem assembleWithTransitionsPlan_multi (assets : List ResolvedAsset)
    (scenes : List Scene) (options : AssemblyOptions) (hn : 2 ≤ assets.length) :
    ∃ parts : List FilterOp,
      assembleWithTransitionsPlan assets scenes options = some (.complexFilter parts) ∧
      parts.countP FilterOp.isNormalize = assets.length ∧
      parts.countP FilterOp.hasOutv = 1 ∧
      ∃ lastOp, parts.getLast? = some lastOp ∧ lastOp.hasOutv = true := by
  obtain ⟨junctions, lastOp, hp, hlen, hall, hnrm2, hout2⟩ :=
    buildChain_parts_structure assets.length hn scenes (jsOrQ options.width 1920)
      (jsOrQ options.height 1080) (jsOrQ options.fps 30)
  have hne1 : ¬(assets.length = 1) := by omega
  refine ⟨(buildChain assets.length scenes (jsOrQ options.width 1920)
      (jsOrQ options.height 1080) (jsOrQ options.fps 30)).parts, ?_, ?_, ?_, ?_⟩
  · simp only [assembleWithTransitionsPlan]
    rw [if_neg hne1]
    unfold finalizeParts
    rw [hp, List.getLast?_concat]
    simp only [hout2, if_true]
    rw [← hp]
    rfl
  · rw [hp]
    rw [List.countP_append, List.countP_append]
    have h1 : (scaleParts assets.length (jsOrQ options.width 1920)
        (jsOrQ options.height 1080) (jsOrQ options.fps 30)).countP
        FilterOp.isNormalize =
        (scaleParts assets.length (jsOrQ options.width 1920)
          (jsOrQ options.height 1080) (jsOrQ options.fps 30)).length := by
      rw [List.countP_eq_length]
      intro op hop
      exact (scaleParts_flags _ _ _ _ op hop).1
    have h2 : junctions.countP FilterOp.isNormalize = 0 := by
      rw [List.countP_eq_zero]
      intro op hop
      simp [(hall op hop).1]
    have h3 : [lastOp].countP FilterOp.isNormalize = 0 := by
      rw [List.countP_eq_zero]
      intro op hop
      rw [List.mem_singleton] at hop
      subst hop
      simp [hnrm2]
    rw [h1, h2, h3, scaleParts_length]
    omega
  · rw [hp]
    rw [List.countP_append, List.countP_append]
    have h1 : (scaleParts assets.length (jsOrQ options.width 1920)
        (jsOrQ options.height 1080) (jsOrQ options.fps 30)).countP
        FilterOp.hasOutv = 0 := by
      rw [List.countP_eq_zero]
      intro op hop
      simp [(scaleParts_flags _ _ _ _ op hop).2]
    have h2 : junctions.countP FilterOp.hasOutv = 0 := by
      rw [List.countP_eq_zero]
      intro op hop
      simp [(hall op hop).2]
    have h3 : [lastOp].countP FilterOp.hasOutv = 1 := by
      simp [List.countP_cons, hout2]
    rw [h1, h2, h3]
  · rw [hp, List.getLast?_concat]
    exact ⟨lastOp, rfl, hout2⟩

/-- C5: for two or more resolved assets the transition planner always
produces a filter plan that terminates in exactly one `[outv]`-labelled
combined output (the last part); when the chaining had not ended in a
part mentioning `[outv]`, finalization falls back to keeping the first
n (scale) parts and concatenating all normalized inputs, and that
fallback plan is itself valid. -/
theorem transition_plan_single_output (assets : List ResolvedAsset)
    (scenes : List Scene) (options : AssemblyOptions) (hn : 2 ≤ assets.length) :
    (∃ parts, assembleWithTransitionsPlan assets scenes options =
      some (.complexFilter parts) ∧
      parts.countP FilterOp.hasOutv = 1 ∧
      ∃ lastOp, parts.getLast? = some lastOp ∧ lastOp.hasOutv = true) ∧
    (∀ (k : Nat) (parts : List FilterOp) (lastOp : FilterOp),
      parts.getLast? = some lastOp → lastOp.hasOutv = false →
      finalizeParts k parts = some (parts.take k ++ [.concatAll k])) ∧
    (∀ (k : Nat) (w hq f : ℚ),
      (scaleParts k w hq f ++ [FilterOp.concatAll k]).countP FilterOp.hasOutv = 1 ∧
      (scaleParts k w hq f ++ [FilterOp.concatAll k]).getLast? =
        some (.concatAll k)) := by
  refine ⟨?_, ?_, ?_⟩
  · obtain ⟨parts, he, _, hone, hlast⟩ :=
      assembleWithTransitionsPlan_multi assets scenes options hn
    exact ⟨parts, he, hone, hlast⟩
  · intro k parts lastOp hlast hfalse
    unfold finalizeParts
    rw [hlast]
    simp [hfalse]
  · intro k w hq f
    constructor
    · rw [List.countP_append]
      have h1 : (scaleParts k w hq f).countP FilterOp.hasOutv = 0 := by
        rw [List.countP_eq_zero]
        intro op hop
        simp [(scaleParts_flags _ _ _ _ op hop).2]
      rw [h1]
      rfl
    · exact List.getLast?_concat _

/-- Witness for C5: the single-output invariant at a concrete pair of
assets, and the fallback finalization at a concrete part list. -/
theorem transition_plan_single_output_witness :
    (2 ≤ ([⟨"s1", "a1", "/a1.mp4", .existing, 1, false⟩,
          ⟨"s2", "a2", "/a2.mp4", .existing, 1, false⟩] : List ResolvedAsset).length ∧
      ∃ parts, assembleWithTransitionsPlan
          [⟨"s1", "a1", "/a1.mp4", .existing, 1, false⟩,
           ⟨"s2", "a2", "/a2.mp4", .existing, 1, false⟩]
          [] ⟨"/out.mp4", none, none, none⟩ = some (.complexFilter parts) ∧
        parts.countP FilterOp.hasOutv = 1 ∧
        ∃ lastOp, parts.getLast? = some lastOp ∧ lastOp.hasOutv = true) ∧
    ((FilterOp.scale 0 1 1 1).hasOutv = false ∧
      finalizeParts 1 [FilterOp.scale 0 1 1 1] =
        some ([FilterOp.scale 0 1 1 1].take 1 ++ [.concatAll 1])) := by
  constructor
  · exact ⟨by decide,
      (transition_plan_single_output
        [⟨"s1", "a1", "/a1.mp4", .existing, 1, false⟩,
         ⟨"s2", "a2", "/a2.mp4", .existing, 1, false⟩]
        [] ⟨"/out.mp4", none, none, none⟩ (by decide)).1⟩
  · exact ⟨rfl,
      (transition_plan_single_output
        [⟨"s1", "a1", "/a1.mp4", .existing, 1, false⟩,
         ⟨"s2", "a2", "/a2.mp4", .existing, 1, false⟩]
        [] ⟨"/out.mp4", none, none, none⟩ (by decide)).2.1 1
        [FilterOp.scale 0 1 1 1] (FilterOp.scale 0 1 1 1) rfl rfl⟩

/-- A helper to build a scene with a given duration and transition-out
kind and no other metadata. -/
def mkScene (sid : String) (seq : Nat) (d : ℚ) (tout : TransitionType) : Scene :=
  ⟨sid, seq, d, "", [], none, .cut, tout, none, none, none, false⟩

/-- A storyboard whose two scenes use only `cut` transitions, so
assembleStoryboard takes the simple concatenation path. -/
def cutStoryboard : Storyboard :=
  ⟨"sb_c", "cuts", [mkScene "c1" 1 4 .cut, mkScene "c2" 2 5 .cut], (1920, 1080), 30⟩

/-- The two resolved assets of `cutStoryboard`. -/
def twoAssets : List ResolvedAsset :=
  [⟨"c1", "a1", "/a1.mp4", .existing, 1, false⟩,
   ⟨"c2", "a2", "/a2.mp4", .existing, 1, false⟩]

/-- Counterexample to C3 as stated: on the no-transition concatenation
path (assembleSimple) the plan applies a single scale/pad/fps chain to
the concatenated stream, so two resolved assets yield one normalize
step, not two. -/
theorem simple_path_normalize_counterexample :
    twoAssets.length = 2 ∧
    ∃ p : SimplePlan,
      assembleStoryboardPlan cutStoryboard twoAssets "/out.mp4" =
        AssemblyPlan.simple p ∧
      p.normalizeCount = 1 := by
  exact ⟨rfl, _, rfl, rfl⟩

/-- C3 (amended): on the transition-planner paths the plan has exactly
one normalize step per resolved asset — the single-asset path has one,
and the multi-asset filter graph has one scale part per input, also
after the fallback analysis — while the simple concatenation path
(assembleSimple) always applies exactly one normalize step to the
concatenated stream, regardless of the number of assets. -/
theorem normalize_step_counts :
    (∀ (assets : List ResolvedAsset) (scenes : List Scene)
      (options : AssemblyOptions), assets.length = 1 →
      assembleWithTransitionsPlan assets scenes options =
        some (.singleNormalize (jsOrQ options.width 1920)
          (jsOrQ options.height 1080) (jsOrQ options.fps 30)) ∧
      (TransPlan.singleNormalize (jsOrQ options.width 1920)
        (jsOrQ options.height 1080) (jsOrQ options.fps 30)).normalizeCount =
        assets.length) ∧
    (∀ (assets : List ResolvedAsset) (scenes : List Scene)
      (options : AssemblyOptions), 2 ≤ assets.length →
      ∃ parts, assembleWithTransitionsPlan assets scenes options =
        some (.complexFilter parts) ∧
        parts.countP FilterOp.isNormalize = assets.length) ∧
    (∀ (assets : List ResolvedAsset) (options : AssemblyOptions),
      (assembleSimplePlan assets options).normalizeCount = 1) := by
  refine ⟨?_, ?_, ?_⟩
  · intro assets scenes options h
    constructor
    · simp only [assembleWithTransitionsPlan]
      rw [if_pos h]
    · rw [h]
      rfl
  · intro assets scenes options hn
    obtain ⟨parts, he, hcount, _, _⟩ :=
      assembleWithTransitionsPlan_multi assets scenes options hn
    exact ⟨parts, he, hcount⟩
  · intro assets options
    rfl

/-- Witness for C3 (amended): the normalize counts at one and at two
concrete assets. -/
theorem normalize_step_counts_witness :
    (([⟨"s1", "a1", "/a1.mp4", .existing, 1, false⟩] : List ResolvedAsset).length = 1 ∧
      assembleWithTransitionsPlan [⟨"s1", "a1", "/a1.mp4", .existing, 1, false⟩]
          [] ⟨"/out.mp4", none, none, none⟩ =
        some (.singleNormalize (jsOrQ none 1920) (jsOrQ none 1080) (jsOrQ none 30))) ∧
    (2 ≤ twoAssets.length ∧
      ∃ parts, assembleWithTransitionsPlan twoAssets [] ⟨"/out.mp4", none, none, none⟩ =
        some (.complexFilter parts) ∧
        parts.countP FilterOp.isNormalize = twoAssets.length) ∧
    (assembleSimplePlan twoAssets ⟨"/out.mp4", none, none, none⟩).normalizeCount = 1 := by
  refine ⟨⟨rfl, ?_⟩, ⟨by decide, ?_⟩, ?_⟩
  · exact (normalize_step_counts.1 [⟨"s1", "a1", "/a1.mp4", .existing, 1, false⟩]
      [] ⟨"/out.mp4", none, none, none⟩ rfl).1
  · exact normalize_step_counts.2.1 twoAssets [] ⟨"/out.mp4", none, none, none⟩ (by decide)
  · exact normalize_step_counts.2.2 twoAssets ⟨"/out.mp4", none, none, none⟩

/-- Three scenes whose per-scene transitions (transition-out of scenes
1 and 2) are `[fade, cut]`. -/
def fadeCutScenes (d1 d2 d3 : ℚ) : List Scene :=
  [mkScene "s1" 1 d1 .fade, mkScene "s2" 2 d2 .cut, mkScene "s3" 3 d3 .cut]

theorem fadeCut_buildChain (w hq f d1 d2 d3 : ℚ) (h1 : d1 ≠ 0) (h2 : d2 ≠ 0) :
    buildChain 3 (fadeCutScenes d1 d2 d3) w hq f =
      ⟨.xf 1, d1 + d2 - transitionDuration,
        scaleParts 3 w hq f ++
          [.xfade (.v 0) 1 "fade" transitionDuration (d1 - transitionDuration) (.xf 1),
           .concat2 (.xf 1) 2 .outv]⟩ := by
  have hd1 : jsSceneDuration (fadeCutScenes d1 d2 d3) 0 = d1 := by
    simp [jsSceneDuration, fadeCutScenes, mkScene, h1]
  have hd2 : jsSceneDuration (fadeCutScenes d1 d2 d3) 1 = d2 := by
    simp [jsSceneDuration, fadeCutScenes, mkScene, h2]
  have ht1 : jsSceneTransitionOut (fadeCutScenes d1 d2 d3) 0 = TransitionType.fade := rfl
  have ht2 : jsSceneTransitionOut (fadeCutScenes d1 d2 d3) 1 = TransitionType.cut := rfl
  unfold buildChain
  rw [show List.range' 1 (3 - 1) = [1, 2] from rfl, List.foldl_cons, List.foldl_cons,
    List.foldl_nil]
  simp only [junctionStep]
  norm_num [hd1, hd2, ht1, ht2, xfadeName,
    eq_false (by decide : ¬(TransitionType.fade = TransitionType.cut)),
    eq_false (by decide : ¬(FLabel.xf 1 = FLabel.outv)), List.append_assoc]

/-- C2: on three scenes with per-scene transitions `[fade, cut]` the
planner emits exactly two junction parts after the three scale parts —
a fade `xfade` at junction 1 (whose written filter offset is d1 − 0.5)
and a `concat` at junction 2 — and the accumulated junction start
offset at the second junction (the cumulative duration of the two prior
scenes minus the transition duration consumed by the fade overlap, the
loop's `offset` variable) equals d1 + d2 − 0.5; the resulting chain is
exactly the plan the planner returns for three assets. -/
theorem fade_cut_junction_offsets (w hq f d1 d2 d3 : ℚ) (h1 : 0 < d1) (h2 : 0 < d2) :
    (buildChain 3 (fadeCutScenes d1 d2 d3) w hq f).parts =
      scaleParts 3 w hq f ++
        [.xfade (.v 0) 1 "fade" transitionDuration (d1 - transitionDuration) (.xf 1),
         .concat2 (.xf 1) 2 .outv] ∧
    ((buildChain 3 (fadeCutScenes d1 d2 d3) w hq f).parts.drop 3).length = 2 ∧
    (buildChain 3 (fadeCutScenes d1 d2 d3) w hq f).offset =
      d1 + d2 - transitionDuration ∧
    (∀ (assets : List ResolvedAsset) (options : AssemblyOptions),
      assets.length = 3 →
      assembleWithTransitionsPlan assets (fadeCutScenes d1 d2 d3) options =
        some (.complexFilter
          ((buildChain 3 (fadeCutScenes d1 d2 d3) (jsOrQ options.width 1920)
            (jsOrQ options.height 1080) (jsOrQ options.fps 30)).parts))) := by
  refine ⟨?_, ?_, ?_, ?_⟩
  · rw [fadeCut_buildChain w hq f d1 d2 d3 h1.ne' h2.ne']
  · rw [fadeCut_buildChain w hq f d1 d2 d3 h1.ne' h2.ne',
      show scaleParts 3 w hq f =
        [FilterOp.scale 0 w hq f, FilterOp.scale 1 w hq f, FilterOp.scale 2 w hq f]
      from rfl]
    rfl
  · rw [fadeCut_buildChain w hq f d1 d2 d3 h1.ne' h2.ne']
  · intro assets options ha
    simp only [assembleWithTransitionsPlan, ha]
    rw [if_neg (by norm_num)]
    rw [fadeCut_buildChain (jsOrQ options.width 1920) (jsOrQ options.height 1080)
      (jsOrQ options.fps 30) d1 d2 d3 h1.ne' h2.ne']
    rfl

/-- Witness for C2: the junction count and second-junction offset at
concrete durations 4, 6, 3. -/
theorem fade_cut_junction_offsets_witness :
    (0 : ℚ) < 4 ∧ (0 : ℚ) < 6 ∧
    (buildChain 3 (fadeCutScenes 4 6 3) 1920 1080 30).offset =
      4 + 6 - transitionDuration ∧
    ((buildChain 3 (fadeCutScenes 4 6 3) 1920 1080 30).parts.drop 3).length = 2 :=
  ⟨by norm_num, by norm_num,
    (fade_cut_junction_offsets 1920 1080 30 4 6 3 (by norm_num) (by norm_num)).2.2.1,
    (fade_cut_junction_offsets 1920 1080 30 4 6 3 (by norm_num) (by norm_num)).2.1⟩
